import Mathlib

/-!
Verification development for the `pyvaheat` serial protocol wrapper
(`pyvaheat.py`, class `Vaheat`).

The Python source is shallowly embedded:
* JSON values produced by `json.loads` / consumed by `json.dumps` are the
  inductive `JVal` (numeric leaves are modelled as integers, which covers
  every behaviour exercised here);
* Python dicts are association lists (`Jdict`) with first-match lookup;
* Python exceptions (`KeyError`, `ValueError`, `TypeError`,
  `AttributeError`) are an explicit `Except PyErr` result;
* the serial channel is modelled by the list of frames written during a
  call, a frame being the pair (command name, payload value) that
  `Vaheat.write(Vaheat._json_str(cmd, data))` serializes; replies that the
  device sends back for each exchange are fields of `Dev`, already passed
  through `_json2dict` (so `none` stands for a read that failed to parse,
  e.g. the empty string read from a closed port);
* the text-level codec `_json_str` / `json.dumps` is embedded separately
  (`jsonStr`, `dumpsL`) for the claims about the wire text;
* `Vaheat._add_commas` works on raw text and is embedded over `List Char`
  (`addCommas`), with Python `str.strip`/`rstrip`/`split('\n')`/`'\n'.join`
  and `reversed.replace(',', '', 1)` modelled char by char.
-/

/-- JSON-like values as returned by Python's `json.loads`
(numeric leaves modelled as integers). -/
inductive JVal where
  | null : JVal
  | bool : Bool → JVal
  | num : Int → JVal
  | str : String → JVal
  | arr : List JVal → JVal
  | obj : List (String × JVal) → JVal

/-- A Python dict holding JSON data: association list, first match wins. -/
abbrev Jdict := List (String × JVal)

/-- A frame sent to the device: command name and payload value
(the pair serialized by `Vaheat._json_str`). -/
abbrev Frame := String × JVal

/-- Python exceptions that the embedded code can raise. -/
inductive PyErr where
  | keyError : String → PyErr
  | valueError : String → PyErr
  | typeError : String → PyErr
  | attributeError : String → PyErr
deriving DecidableEq

/-- Python truthiness of a JSON value (`bool(v)`). -/
def truthy : JVal → Bool
  | .null => false
  | .bool b => b
  | .num n => n != 0
  | .str s => s != ""
  | .arr xs => !xs.isEmpty
  | .obj kvs => !kvs.isEmpty

/-- Python truthiness where the value may be `None` (absent). -/
def truthyO : Option JVal → Bool
  | none => false
  | some v => truthy v

/-- Bool test whether a needle list is a prefix of a hay list. -/
def isPrefixB : List Char → List Char → Bool
  | [], _ => true
  | _ :: _, [] => false
  | a :: as, b :: bs => a = b && isPrefixB as bs

/-- Bool substring test (Python `needle in hay` on strings). -/
def isSubstrB (needle : List Char) : List Char → Bool
  | [] => needle.isEmpty
  | c :: t => isPrefixB needle (c :: t) || isSubstrB needle t

/-- Python `k in v` for a string `k` (dict key test, list membership,
substring test; `TypeError` on non-container values). -/
def pyInStr (k : String) (v : JVal) : Except PyErr Bool :=
  match v with
  | .obj kvs => .ok (kvs.any (fun p => p.1 = k))
  | .arr xs => .ok (xs.any (fun x => match x with | .str t => t = k | _ => false))
  | .str s => .ok (isSubstrB k.data s.data)
  | _ => .error (.typeError "argument not iterable")

/-- Python `v == s` for a string literal `s` where `v` may be `None`
(equality between a string and any other type is `False`). -/
def jeqStr (v : Option JVal) (s : String) : Bool :=
  match v with
  | some (.str t) => t = s
  | _ => false

/-- Python `v[k]` for a string key `k`: dict lookup raising `KeyError`,
`TypeError` on anything that is not a dict. -/
def pyIndexStr (v : JVal) (k : String) : Except PyErr JVal :=
  match v with
  | .obj kvs =>
    match kvs.lookup k with
    | some x => .ok x
    | none => .error (.keyError k)
  | _ => .error (.typeError "not subscriptable")

/-- ASCII model of Python `str.lower()`; `AttributeError` on non-strings
(mirrors `mode.lower()` applied to a non-string config value). -/
def pyLower (v : JVal) : Except PyErr String :=
  match v with
  | .str s => .ok (String.mk (s.data.map Char.toLower))
  | _ => .error (.attributeError "lower")

/-- Python `v < k or v > k2`-style integer comparison used on
`profile_number` (`bool` counts as 0/1 as in Python; `TypeError`
otherwise). -/
def jvalOutside (v : JVal) (lo hi : Int) : Except PyErr Bool :=
  match v with
  | .num n => .ok (n < lo || hi < n)
  | .bool b => .ok ((if b then (1 : Int) else 0) < lo || hi < (if b then (1 : Int) else 0))
  | _ => .error (.typeError "comparison not supported")

/-! ## `Vaheat._add_commas` (JSON repair), embedded over `List Char`

Python source:
```
pat = ".*[{}:\[\]]$"
lines = json_string.split('\n')
for line in lines:
    stripped_line = line.strip()
    if stripped_line and not re.search(pat, stripped_line):
        if not stripped_line.endswith(','):
            line = line.rstrip() + ','
    corrected_lines.append(line)
corrected_json_string = '\n'.join(corrected_lines)
reversed_s = corrected_json_string[::-1]
corrected_s = reversed_s.replace(',', '', 1)
return corrected_s[::-1]
```
-/

/-- Python string whitespace (`str.strip` default set). -/
def isWs (c : Char) : Bool :=
  c = ' ' || c = '\t' || c = '\n' || c = '\r' || c = '\x0b' || c = '\x0c'

/-- Python `str.rstrip()`. -/
def rstripL (l : List Char) : List Char :=
  (l.reverse.dropWhile isWs).reverse

/-- Python `str.lstrip()`. -/
def lstripL (l : List Char) : List Char :=
  l.dropWhile isWs

/-- Python `str.strip()`. -/
def stripL (l : List Char) : List Char :=
  lstripL (rstripL l)

/-- Python `s.split('\n')` (keeps empty pieces). -/
def splitNl : List Char → List (List Char)
  | [] => [[]]
  | c :: cs =>
    if c = '\n' then [] :: splitNl cs
    else
      match splitNl cs with
      | [] => [[c]]
      | l :: ls => (c :: l) :: ls

/-- Python `'\n'.join(lines)`. -/
def joinNl : List (List Char) → List Char
  | [] => []
  | [l] => l
  | l :: ls => l ++ '\n' :: joinNl ls

/-- Whether the (stripped) line matches `re.search(".*[{}:\[\]]$", line)`:
the line is non-empty and its last character is a structural one. -/
def structEnd (l : List Char) : Bool :=
  match l.getLast? with
  | some c => c = '\x7b' || c = '\x7d' || c = ':' || c = '[' || c = ']'
  | none => false

/-- The per-line comma fix of `_add_commas`' loop body. -/
def fixLine (line : List Char) : List Char :=
  let s := stripL line
  if s.isEmpty then line
  else if structEnd s then line
  else if s.getLast? = some ',' then line
  else rstripL line ++ [',']

/-- Python `reversed.replace(',', '', 1)`: drop the first comma, if any. -/
def dropFirstComma : List Char → List Char
  | [] => []
  | c :: cs => if c = ',' then cs else c :: dropFirstComma cs

/-- Remove the last comma of a string (the reverse/replace/reverse trick of
`_add_commas`). -/
def removeLastComma (s : List Char) : List Char :=
  (dropFirstComma s.reverse).reverse

/-- `Vaheat._add_commas`. -/
def addCommas (s : List Char) : List Char :=
  removeLastComma (joinNl ((splitNl s).map fixLine))

example : addCommas "[[1,\n2],\n3]".data = "[[1,\n2]\n3]".data := by decide

example : addCommas "[[1,\n2]\n3]".data = "[[1\n2]\n3]".data := by decide

/-! ## The command vocabulary and frame construction (`Vaheat._json_str`) -/

/-- The keys of `Vaheat.API_CMD`. -/
def apiCmd : List String :=
  ["get_info", "get_status", "get_settings", "get_streaming", "get_profile",
   "start_heating", "stop_heating", "do_reset", "set_keylock", "set_settings",
   "set_streaming", "set_mode", "set_profile"]

/-- Frame-level view of `Vaheat._json_str`: the (command, payload) pair it
serializes, `none` when the command name is rejected; an absent payload
becomes the literal `true`. -/
def mkFrame (cmd : String) (data : Option JVal) : Option Frame :=
  if cmd ∈ apiCmd then some (cmd, data.getD (.bool true)) else none

/-- `Vaheat.write` at frame level: `None` from `_json_str` writes nothing and
returns `False`; a closed port writes nothing and returns `False`. -/
def writeF (isOpen : Bool) (f : Option Frame) : Bool × List Frame :=
  match f with
  | none => (false, [])
  | some fr => if isOpen then (true, [fr]) else (false, [])

/-! ## Device model

One embedded call performs at most two request/reply exchanges.  Each
exchange's reply is a field of `Dev`, given already parsed by
`_json2dict` (`none` covers both a JSON decode error and the empty string
that `read_all_lines`/`readline` returns on a closed port). -/

/-- The device/connection state visible to one embedded call. -/
structure Dev where
  isOpen : Bool
  statusReply : Option JVal := none
  heatReply : Option JVal := none
  streamReply : Option JVal := none
  modeReply : Option JVal := none
  resetReply : Option JVal := none

/-- The parsed reply actually obtained for an exchange: a closed port reads
the empty string, which `_json2dict` turns into `None`. -/
def readReply (dev : Dev) (r : Option JVal) : Option JVal :=
  if dev.isOpen then r else none

/-- `Vaheat._get(cmd)`: write the parameterless frame, return the parsed
reply; returns `None` without any write when the port is closed (or the
command name is rejected so that `write` returns `False`). -/
def pyGet (dev : Dev) (cmd : String) (reply : Option JVal) :
    Option JVal × List Frame :=
  if dev.isOpen then
    match mkFrame cmd none with
    | some fr => (readReply dev reply, [fr])
    | none => (none, [])
  else (none, [])

/-- `Vaheat._is_success`: `False` on a falsy reply, on `success` present and
falsy, and on `error` present; `True` otherwise.  Non-dict replies go
through Python's `in`/indexing semantics. -/
def isSuccess (d : Option JVal) : Except PyErr Bool :=
  match d with
  | none => .ok false
  | some v =>
    if truthy v = false then .ok false
    else
      match pyInStr "success" v with
      | .error e => .error e
      | .ok true =>
        match pyIndexStr v "success" with
        | .error e => .error e
        | .ok sv =>
          if truthy sv = false then .ok false
          else
            match pyInStr "error" v with
            | .error e => .error e
            | .ok true => .ok false
            | .ok false => .ok true
      | .ok false =>
        match pyInStr "error" v with
        | .error e => .error e
        | .ok true => .ok false
        | .ok false => .ok true

/-- Value part of `Vaheat.get_status`: `status['data']` when the parsed
reply `status` is truthy, else `None`. -/
def statusData : Option JVal → Except PyErr (Option JVal)
  | none => .ok none
  | some v =>
    if truthy v then
      match pyIndexStr v "data" with
      | .error e => .error e
      | .ok dv => .ok (some dv)
    else .ok none

/-- `Vaheat.get_status`: `_get('get_status')`, then `status['data']` when the
reply is truthy, else `None`. -/
def get_status (dev : Dev) : Except PyErr (Option JVal) × List Frame :=
  (statusData (pyGet dev "get_status" dev.statusReply).1,
   (pyGet dev "get_status" dev.statusReply).2)

/-- Value part of `Vaheat.get_alarm`: `status['alarm']` of a truthy status. -/
def alarmOf : Except PyErr (Option JVal) → Except PyErr (Option JVal)
  | .error e => .error e
  | .ok none => .ok none
  | .ok (some v) =>
    if truthy v then
      match pyIndexStr v "alarm" with
      | .error e => .error e
      | .ok av => .ok (some av)
    else .ok none

/-- `Vaheat.get_alarm`: `get_status()['alarm']` when the status is truthy,
else `None`. -/
def get_alarm (dev : Dev) : Except PyErr (Option JVal) × List Frame :=
  (alarmOf (get_status dev).1, (get_status dev).2)

/-- `config.get(k)` as an optional single-binding dict fragment: the
`if k in config: d[k] = config[k]` pattern of the mode branches. -/
def optField (config : Jdict) (k : String) : Jdict :=
  match config.lookup k with
  | some v => [(k, v)]
  | none => []

/-! ## `Vaheat.start_heating`

```
if not config: return False
alarm = self.get_alarm()
if not alarm or alarm != "NO_ALARM": return False
mode = config.get('mode','auto')
d = {'mode':mode}
if mode.lower() == 'auto': ...
elif mode.lower() == 'profile':
    if 'profile_number' in config:
        profile_number = config['profile_number']
        if profile_number < 1 or profile_number > 9: return False
        d['profile_number'] = profile_number
    if 'ignore_limit_error':              # literal string, always truthy
        d['ignore_limit_error'] = config['ignore_limit_error']
self.write(self._json_str('start_heating',data=d))
if self._is_success(...): return True
return False
```
The payload construction is factored out as `heatPayload`: it yields the
built dict, `none` for the early `return False` on an out-of-range
profile number, or the raised exception. -/

/-- Payload construction of `start_heating` after the alarm gate (`none`
encodes the early `return False` on a bad profile number). -/
def heatPayload (config : Jdict) : Except PyErr (Option Jdict) :=
  let mode := (config.lookup "mode").getD (.str "auto")
  match pyLower mode with
  | .error e => .error e
  | .ok ml =>
    if ml = "auto" then .ok (some ([("mode", mode)] ++ optField config "temperature"))
    else if ml = "direct" then .ok (some ([("mode", mode)] ++ optField config "power"))
    else if ml = "shock" then
      .ok (some ([("mode", mode)] ++ optField config "power" ++ optField config "duration"))
    else if ml = "profile" then
      match config.lookup "profile_number" with
      | some pn =>
        match jvalOutside pn 1 9 with
        | .error e => .error e
        | .ok true => .ok none
        | .ok false =>
          match config.lookup "ignore_limit_error" with
          | some v => .ok (some [("mode", mode), ("profile_number", pn), ("ignore_limit_error", v)])
          | none => .error (.keyError "ignore_limit_error")
      | none =>
        match config.lookup "ignore_limit_error" with
        | some v => .ok (some [("mode", mode), ("ignore_limit_error", v)])
        | none => .error (.keyError "ignore_limit_error")
    else .ok (some [("mode", mode)])

/-- `Vaheat.start_heating` (result, frames written in order). -/
def start_heating (dev : Dev) (config : Jdict) : Except PyErr Bool × List Frame :=
  if config.isEmpty then (.ok false, [])
  else
    let fs1 := (get_alarm dev).2
    match (get_alarm dev).1 with
    | .error e => (.error e, fs1)
    | .ok alarm =>
      if (!truthyO alarm || !jeqStr alarm "NO_ALARM") = true then (.ok false, fs1)
      else
        match heatPayload config with
        | .error e => (.error e, fs1)
        | .ok none => (.ok false, fs1)
        | .ok (some d) =>
          let fs2 := (writeF dev.isOpen (mkFrame "start_heating" (some (.obj d)))).2
          (isSuccess (readReply dev dev.heatReply), fs1 ++ fs2)

/-! ## `Vaheat.set_mode`

```
if 'mode' not in config: raise ValueError('No mode key in config.')
mode = config['mode'].lower()
d = {'mode':mode}
if mode == 'auto': ...
elif mode == 'shock':
    if 'power' in config: d['power'] = config['power']
    if 'duration':                      # literal string, always truthy
        d['duration'] = config['duration']
elif mode == 'profile':
    if 'profile_number' in config: d['profile_number'] = config['profile_number']
else: raise ValueError(f"Mode ... is not allowed.")
self.write(self._json_str('set_mode', data=d))
response = self._json2dict(self.read_all_lines())
return response and self._is_success(response)
```
A falsy `response` is returned as-is by the final `and`; that falsy
return value is modelled as `none`. -/

/-- Payload construction of `set_mode` (the built dict or the raised
exception). -/
def modePayload (config : Jdict) : Except PyErr Jdict :=
  match config.lookup "mode" with
  | none => .error (.valueError "No mode key in config.")
  | some mv =>
    match pyLower mv with
    | .error e => .error e
    | .ok mode =>
      if mode = "auto" then .ok ([("mode", .str mode)] ++ optField config "temperature")
      else if mode = "direct" then .ok ([("mode", .str mode)] ++ optField config "power")
      else if mode = "shock" then
        match config.lookup "duration" with
        | some dv => .ok ([("mode", .str mode)] ++ optField config "power" ++ [("duration", dv)])
        | none => .error (.keyError "duration")
      else if mode = "profile" then .ok ([("mode", .str mode)] ++ optField config "profile_number")
      else .error (.valueError ("Mode " ++ mode ++ " is not allowed."))

/-- `Vaheat.set_mode` (result, frames written); the Python method returns
the falsy `response` itself when the reply is falsy, modelled as `none`. -/
def set_mode (dev : Dev) (config : Jdict) : Except PyErr (Option Bool) × List Frame :=
  match modePayload config with
  | .error e => (.error e, [])
  | .ok d =>
    let fs := (writeF dev.isOpen (mkFrame "set_mode" (some (.obj d)))).2
    let response := readReply dev dev.modeReply
    if truthyO response = false then (.ok none, fs)
    else
      match isSuccess response with
      | .error e => (.error e, fs)
      | .ok b => (.ok (some b), fs)

/-! ## `Vaheat.do_reset`

```
if len(config) == 0: return False
d = {}
if "alL" in config and config["all"]:
    d['all'] = True
else:
    d = config
self.write(self._json_str('do_reset', config))
return self._is_success(self._json2dict(self.read_all_lines()))
```
Note the source tests the key `"alL"` (capital L) and then sends `config`
positionally as the payload, never `d`; the computation of `d` is dead
except for the `KeyError` that `config["all"]` can raise. -/

/-- `Vaheat.do_reset` (result, frames written). -/
def do_reset (dev : Dev) (config : Jdict) : Except PyErr Bool × List Frame :=
  if config.length = 0 then (.ok false, [])
  else
    let chk : Except PyErr Unit :=
      if (config.lookup "alL").isSome then
        match config.lookup "all" with
        | some _ => .ok ()
        | none => .error (.keyError "all")
      else .ok ()
    match chk with
    | .error e => (.error e, [])
    | .ok _ =>
      let fs := (writeF dev.isOpen (mkFrame "do_reset" (some (.obj config)))).2
      (isSuccess (readReply dev dev.resetReply), fs)

/-! ## Streaming: `set_streaming`, `start_streaming`, `stop_streaming` -/

/-- `Vaheat.set_streaming`: sends the caller's `config` as the payload,
unmodified (no fetch of the current configuration, no merge). -/
def set_streaming (dev : Dev) (config : Jdict) : Except PyErr Bool × List Frame :=
  if config.isEmpty then (.ok false, [])
  else
    let fs := (writeF dev.isOpen (mkFrame "set_streaming" (some (.obj config)))).2
    (isSuccess (readReply dev dev.streamReply), fs)

/-- `Vaheat.start_streaming(mode)`: alarm gate, then
`set_streaming({'mode': mode})` for `'continuous'`/`'once'`. -/
def start_streaming (dev : Dev) (mode : String) : Except PyErr Bool × List Frame :=
  let fs1 := (get_alarm dev).2
  match (get_alarm dev).1 with
  | .error e => (.error e, fs1)
  | .ok alarm =>
    if (!truthyO alarm || !jeqStr alarm "NO_ALARM") = true then (.ok false, fs1)
    else if mode = "continuous" || mode = "once" then
      let r := set_streaming dev [("mode", .str mode)]
      (r.1, fs1 ++ r.2)
    else (.ok false, fs1)

/-- `Vaheat.stop_streaming`: `set_streaming({'mode':'off'})`. -/
def stop_streaming (dev : Dev) : Except PyErr Bool × List Frame :=
  set_streaming dev [("mode", .str "off")]

/-! ## Text-level codec: `json.dumps` (default options) and `Vaheat._json_str` -/

/-- One hex digit (lowercase), as Python's `\uXXXX` escapes use. -/
def hexDigit (n : Nat) : Char :=
  if n < 10 then Char.ofNat (48 + n) else Char.ofNat (87 + n)

/-- `json.dumps` escaping of one character inside a string literal
(default `ensure_ascii=True`; code points are modelled within the BMP,
which covers every string this development touches). -/
def jesc (c : Char) : List Char :=
  if c = '"' then ['\\', '"']
  else if c = '\\' then ['\\', '\\']
  else if c = '\n' then ['\\', 'n']
  else if c = '\t' then ['\\', 't']
  else if c = '\r' then ['\\', 'r']
  else if c = '\x08' then ['\\', 'b']
  else if c = '\x0c' then ['\\', 'f']
  else if c.toNat < 32 || 126 < c.toNat then
    ['\\', 'u', hexDigit (c.toNat / 4096 % 16), hexDigit (c.toNat / 256 % 16),
     hexDigit (c.toNat / 16 % 16), hexDigit (c.toNat % 16)]
  else [c]

/-- `json.dumps` of a Python string. -/
def jstrL (s : String) : List Char :=
  '"' :: (s.data.map jesc).flatten ++ ['"']

mutual

/-- `json.dumps(v)` with default separators, as a character list. -/
def dumpsL : JVal → List Char
  | .null => "null".data
  | .bool b => if b then "true".data else "false".data
  | .num n => (toString n).data
  | .str s => jstrL s
  | .arr xs => '[' :: dumpsArr xs ++ [']']
  | .obj kvs => '\x7b' :: dumpsObj kvs ++ ['\x7d']

/-- Array items, `", "`-separated. -/
def dumpsArr : List JVal → List Char
  | [] => []
  | [x] => dumpsL x
  | x :: y :: xs => dumpsL x ++ ',' :: ' ' :: dumpsArr (y :: xs)

/-- Object members, `", "`-separated, `": "` between key and value. -/
def dumpsObj : List (String × JVal) → List Char
  | [] => []
  | [(k, v)] => jstrL k ++ ':' :: ' ' :: dumpsL v
  | (k, v) :: y :: xs => jstrL k ++ ':' :: ' ' :: dumpsL v ++ ',' :: ' ' :: dumpsObj (y :: xs)

end

/-- `json.dumps(v)` as a `String`. -/
def dumps (v : JVal) : String :=
  String.mk (dumpsL v)

/-- `Vaheat._json_str`: `None` when the command is not in `API_CMD`, else
the serialized `{cmd: data}` object, an absent `data` being the literal
`True`. -/
def jsonStr (cmd : String) (data : Option JVal) : Option String :=
  if cmd ∈ apiCmd then some (dumps (.obj [(cmd, data.getD (.bool true))])) else none

/-- `Vaheat.write` at text level: a falsy argument (`None` from
`_json_str`, or the empty string) writes nothing and returns `False`; so
does a closed port. -/
def pyWrite (isOpen : Bool) (js : Option String) : Bool × List String :=
  match js with
  | none => (false, [])
  | some s => if s = "" then (false, []) else if isOpen then (true, [s]) else (false, [])

example : jsonStr "get_info" none = some "\x7b\"get_info\": true\x7d" := by decide

example : jsonStr "get_infoo" none = none := by decide

/-! ## JSON syntactic validity

A conservative model of the syntax accepted by Python's `json.loads`
(RFC 8259): it accepts literals, integers, escape-free strings, arrays
and objects.  It is an under-approximation (fractions, exponents and
string escapes are rejected), which is sound for asserting that a
concrete text *is* valid JSON. -/

/-- JSON insignificant whitespace. -/
def skipJWs (s : List Char) : List Char :=
  s.dropWhile (fun c => c = ' ' || c = '\n' || c = '\t' || c = '\r')

/-- ASCII digit test. -/
def isDigitB (c : Char) : Bool :=
  '0' ≤ c && c ≤ '9'

/-- Consume one or more digits. -/
def jdigits : List Char → Option (List Char)
  | c :: rest => if isDigitB c then some (rest.dropWhile isDigitB) else none
  | [] => none

/-- Consume the remainder of an escape-free string literal after the
opening quote. -/
def jstrRest : List Char → Option (List Char)
  | [] => none
  | c :: r => if c = '"' then some r else if c = '\\' then none else jstrRest r

/-- Parser modes: a single value, array items, object members. -/
inductive JPMode where
  | val : JPMode
  | items : JPMode
  | members : JPMode

/-- Fuel-driven recursive-descent JSON recognizer; returns the rest of the
input after the recognized production. -/
def jparse : Nat → JPMode → List Char → Option (List Char)
  | 0, _, _ => none
  | fuel + 1, .val, s =>
    match skipJWs s with
    | 'n' :: 'u' :: 'l' :: 'l' :: r => some r
    | 't' :: 'r' :: 'u' :: 'e' :: r => some r
    | 'f' :: 'a' :: 'l' :: 's' :: 'e' :: r => some r
    | '"' :: r => jstrRest r
    | '[' :: r =>
      (match skipJWs r with
       | ']' :: r2 => some r2
       | _ => jparse fuel .items r)
    | '\x7b' :: r =>
      (match skipJWs r with
       | '\x7d' :: r2 => some r2
       | _ => jparse fuel .members r)
    | '-' :: r => jdigits r
    | r => jdigits r
  | fuel + 1, .items, s =>
    match jparse fuel .val s with
    | none => none
    | some r =>
      match skipJWs r with
      | ',' :: r2 => jparse fuel .items r2
      | ']' :: r2 => some r2
      | _ => none
  | fuel + 1, .members, s =>
    match skipJWs s with
    | '"' :: r =>
      match jstrRest r with
      | none => none
      | some r2 =>
        match skipJWs r2 with
        | ':' :: r3 =>
          match jparse fuel .val r3 with
          | none => none
          | some r4 =>
            match skipJWs r4 with
            | ',' :: r5 => jparse fuel .members r5
            | '\x7d' :: r5 => some r5
            | _ => none
        | _ => none
    | _ => none

/-- The whole text is one valid JSON value (model of `json.loads`
succeeding). -/
def jsonValid (s : List Char) : Bool :=
  match jparse (s.length + 1) .val s with
  | some r => (skipJWs r).isEmpty
  | none => false

example : jsonValid "[[1,\n2],\n3]".data = true := by decide

example : jsonValid "[[1,\n2]\n3]".data = false := by decide

/-! ## Lemmas about the repair function -/

theorem dropFirstComma_of_not_mem (l : List Char) (h : ',' ∉ l) :
    dropFirstComma l = l := by
  induction l with
  | nil => rfl
  | cons c cs ih =>
    simp only [List.mem_cons, not_or] at h
    simp [dropFirstComma, Ne.symm h.1, ih h.2]

theorem removeLastComma_of_not_mem (l : List Char) (h : ',' ∉ l) :
    removeLastComma l = l := by
  unfold removeLastComma
  rw [dropFirstComma_of_not_mem _ (by simpa using h), List.reverse_reverse]

theorem dropFirstComma_append (a b : List Char) :
    dropFirstComma (a ++ b) =
      if ',' ∈ a then dropFirstComma a ++ b else a ++ dropFirstComma b := by
  induction a with
  | nil => simp
  | cons c cs ih =>
    by_cases hc : c = ','
    · subst hc; simp [dropFirstComma]
    · simp [dropFirstComma, hc, ih, Ne.symm hc]
      by_cases hm : ',' ∈ cs <;> simp [hm]

theorem removeLastComma_append (a b : List Char) :
    removeLastComma (a ++ b) =
      if ',' ∈ b then a ++ removeLastComma b else removeLastComma a ++ b := by
  unfold removeLastComma
  rw [List.reverse_append, dropFirstComma_append]
  by_cases hm : ',' ∈ b <;> simp [hm]

theorem removeLastComma_snoc_comma (a : List Char) :
    removeLastComma (a ++ [',']) = a := by
  rw [removeLastComma_append]
  simp [removeLastComma, dropFirstComma]

theorem mem_removeLastComma (l : List Char) (c : Char) (h : c ∈ removeLastComma l) :
    c ∈ l := by
  unfold removeLastComma at h
  rw [List.mem_reverse] at h
  rw [← List.mem_reverse]
  generalize l.reverse = r at h ⊢
  induction r with
  | nil => simp [dropFirstComma] at h
  | cons a as ih =>
    by_cases ha : a = ','
    · subst ha; simp only [dropFirstComma, if_pos rfl] at h; exact List.mem_cons_of_mem _ h
    · simp only [dropFirstComma, if_neg ha, List.mem_cons] at h
      rcases h with h | h
      · exact h ▸ List.mem_cons_self _ _
      · exact List.mem_cons_of_mem _ (ih h)

theorem splitNl_ne_nil (s : List Char) : splitNl s ≠ [] := by
  induction s with
  | nil => simp [splitNl]
  | cons c cs ih =>
    unfold splitNl
    by_cases hc : c = '\n'
    · simp [hc]
    · simp only [if_neg hc]
      cases h : splitNl cs with
      | nil => simp
      | cons l ls => simp

theorem joinNl_splitNl (s : List Char) : joinNl (splitNl s) = s := by
  induction s with
  | nil => rfl
  | cons c cs ih =>
    unfold splitNl
    by_cases hc : c = '\n'
    · subst hc
      simp only [if_pos rfl]
      cases h : splitNl cs with
      | nil => exact absurd h (splitNl_ne_nil cs)
      | cons l ls =>
        rw [h] at ih
        simpa [joinNl] using ih
    · simp only [if_neg hc]
      cases h : splitNl cs with
      | nil => exact absurd h (splitNl_ne_nil cs)
      | cons l ls =>
        rw [h] at ih
        cases ls with
        | nil => simpa [joinNl] using ih
        | cons m ms => simpa [joinNl] using ih

theorem mem_of_mem_splitNl {s l : List Char} {c : Char}
    (hl : l ∈ splitNl s) (hc : c ∈ l) : c ∈ s := by
  induction s generalizing l with
  | nil =>
    simp only [splitNl, List.mem_singleton] at hl
    subst hl; simp at hc
  | cons a as ih =>
    unfold splitNl at hl
    by_cases ha : a = '\n'
    · simp only [if_pos ha, List.mem_cons] at hl
      rcases hl with rfl | hl
      · simp at hc
      · exact List.mem_cons_of_mem _ (ih hl hc)
    · simp only [if_neg ha] at hl
      cases h : splitNl as with
      | nil => exact absurd h (splitNl_ne_nil as)
      | cons m ms =>
        rw [h] at hl
        simp only [List.mem_cons] at hl
        rcases hl with rfl | hl
        · rcases List.mem_cons.mp hc with rfl | hc2
          · exact List.mem_cons_self _ _
          · exact List.mem_cons_of_mem _ (ih (l := m) (by simp [h]) hc2)
        · exact List.mem_cons_of_mem _ (ih (l := l) (by simp [h, hl]) hc)

theorem no_nl_of_mem_splitNl {s l : List Char}
    (hl : l ∈ splitNl s) : '\n' ∉ l := by
  induction s generalizing l with
  | nil =>
    simp only [splitNl, List.mem_singleton] at hl
    subst hl; simp
  | cons a as ih =>
    unfold splitNl at hl
    by_cases ha : a = '\n'
    · simp only [if_pos ha, List.mem_cons] at hl
      rcases hl with rfl | hl
      · simp
      · exact ih hl
    · simp only [if_neg ha] at hl
      cases h : splitNl as with
      | nil => exact absurd h (splitNl_ne_nil as)
      | cons m ms =>
        rw [h] at hl
        simp only [List.mem_cons] at hl
        rcases hl with rfl | hl
        · have hm : '\n' ∉ m := ih (l := m) (by simp [h])
          simp only [List.mem_cons, not_or]
          exact ⟨fun e => ha e.symm, hm⟩
        · exact ih (l := l) (by simp [h, hl])

theorem splitNl_of_no_nl (l : List Char) (h : '\n' ∉ l) : splitNl l = [l] := by
  induction l with
  | nil => rfl
  | cons c cs ih =>
    simp only [List.mem_cons, not_or] at h
    unfold splitNl
    rw [if_neg (Ne.symm h.1), ih h.2]

theorem splitNl_append_nl (l t : List Char) (h : '\n' ∉ l) :
    splitNl (l ++ '\n' :: t) = l :: splitNl t := by
  induction l with
  | nil => simp [splitNl]
  | cons c cs ih =>
    simp only [List.mem_cons, not_or] at h
    simp only [List.cons_append, splitNl, if_neg (Ne.symm h.1), List.append_eq, ih h.2]

theorem splitNl_joinNl (M : List (List Char)) (hne : M ≠ [])
    (hnl : ∀ l ∈ M, '\n' ∉ l) : splitNl (joinNl M) = M := by
  induction M with
  | nil => exact absurd rfl hne
  | cons l ls ih =>
    cases ls with
    | nil =>
      simpa [joinNl] using splitNl_of_no_nl l (hnl l (List.mem_cons_self _ _))
    | cons m ms =>
      have h1 : '\n' ∉ l := hnl l (List.mem_cons_self _ _)
      have h2 : ∀ x ∈ m :: ms, '\n' ∉ x := fun x hx => hnl x (List.mem_cons_of_mem _ hx)
      simp only [joinNl]
      rw [splitNl_append_nl _ _ h1, ih (by simp) h2]

theorem rstripL_idem (l : List Char) : rstripL (rstripL l) = rstripL l := by
  unfold rstripL
  rw [List.reverse_reverse, List.dropWhile_idempotent]

theorem stripL_rstripL (l : List Char) : stripL (rstripL l) = stripL l := by
  unfold stripL
  rw [rstripL_idem]

theorem mem_dropWhile (p : Char → Bool) (l : List Char) (c : Char)
    (h : c ∈ l.dropWhile p) : c ∈ l := by
  induction l with
  | nil => simp at h
  | cons a as ih =>
    rw [List.dropWhile_cons] at h
    by_cases hp : p a
    · simp only [if_pos hp] at h
      exact List.mem_cons_of_mem _ (ih h)
    · simp only [if_neg hp] at h
      exact h

theorem mem_rstripL (l : List Char) (c : Char) (h : c ∈ rstripL l) : c ∈ l := by
  unfold rstripL at h
  rw [List.mem_reverse] at h
  rw [← List.mem_reverse]
  exact mem_dropWhile _ _ _ h

theorem mem_stripL (l : List Char) (c : Char) (h : c ∈ stripL l) : c ∈ l :=
  mem_rstripL _ _ (mem_dropWhile _ _ _ h)

theorem rstripL_snoc (l : List Char) (c : Char) (hc : isWs c = false) :
    rstripL (l ++ [c]) = l ++ [c] := by
  unfold rstripL
  rw [List.reverse_append]
  simp [List.dropWhile_cons, hc]

theorem lstripL_append (a b : List Char) (h : lstripL a ≠ []) :
    lstripL (a ++ b) = lstripL a ++ b := by
  induction a with
  | nil => exact absurd rfl h
  | cons c cs ih =>
    unfold lstripL at h ⊢
    rw [List.cons_append, List.dropWhile_cons, List.dropWhile_cons]
    by_cases hp : isWs c
    · rw [List.dropWhile_cons, if_pos hp] at h
      simp only [if_pos hp]
      exact ih h
    · simp [hp]

theorem stripL_snoc (l : List Char) (c : Char) (h : stripL l ≠ [])
    (hc : isWs c = false) : stripL (rstripL l ++ [c]) = stripL l ++ [c] := by
  unfold stripL
  rw [rstripL_snoc _ _ hc, lstripL_append]
  exact h

/-- `fixLine` leaves a line alone iff the loop body does. -/
theorem fixLine_eq_self (l : List Char)
    (h : stripL l = [] ∨ structEnd (stripL l) = true ∨ (stripL l).getLast? = some ',') :
    fixLine l = l := by
  unfold fixLine
  rcases h with h | h | h
  · simp [h]
  · have hne : stripL l ≠ [] := by
      intro e; rw [e] at h; simp [structEnd] at h
    simp [List.isEmpty_iff, hne, h]
  · have hne : stripL l ≠ [] := by
      intro e; rw [e] at h; simp at h
    by_cases hs : structEnd (stripL l) = true
    · simp [List.isEmpty_iff, hne, hs]
    · simp [List.isEmpty_iff, hne, hs, h]

theorem fixLine_bad (l : List Char) (h1 : stripL l ≠ [])
    (h2 : structEnd (stripL l) = false)
    (h3 : (stripL l).getLast? ≠ some ',') :
    fixLine l = rstripL l ++ [','] := by
  unfold fixLine
  simp [List.isEmpty_iff, h1, h2, h3]

theorem no_comma_getLast (l : List Char) (h : ',' ∉ l) :
    (stripL l).getLast? ≠ some ',' := by
  intro e
  exact h (mem_stripL _ _ (List.mem_of_mem_getLast? e))

theorem fixLine_idem (l : List Char) (h : ',' ∉ l) :
    fixLine (fixLine l) = fixLine l := by
  by_cases h1 : stripL l = []
  · rw [fixLine_eq_self l (Or.inl h1), fixLine_eq_self l (Or.inl h1)]
  by_cases h2 : structEnd (stripL l) = true
  · rw [fixLine_eq_self l (Or.inr (Or.inl h2)), fixLine_eq_self l (Or.inr (Or.inl h2))]
  have h3 := no_comma_getLast l h
  rw [fixLine_bad l h1 (by simpa using h2) h3]
  have hs : stripL (rstripL l ++ [',']) = stripL l ++ [','] :=
    stripL_snoc l ',' h1 (by decide)
  refine fixLine_eq_self _ (Or.inr (Or.inr ?_))
  rw [hs, List.getLast?_append]
  rfl

theorem fixLine_removeLast (l : List Char) (h : ',' ∉ l) :
    fixLine (removeLastComma (fixLine l)) = fixLine l := by
  by_cases h1 : stripL l = []
  · rw [fixLine_eq_self l (Or.inl h1), removeLastComma_of_not_mem l h,
      fixLine_eq_self l (Or.inl h1)]
  by_cases h2 : structEnd (stripL l) = true
  · rw [fixLine_eq_self l (Or.inr (Or.inl h2)), removeLastComma_of_not_mem l h,
      fixLine_eq_self l (Or.inr (Or.inl h2))]
  have h3 := no_comma_getLast l h
  rw [fixLine_bad l h1 (by simpa using h2) h3, removeLastComma_snoc_comma]
  have hb2 : fixLine (rstripL l) = rstripL (rstripL l) ++ [','] :=
    fixLine_bad (rstripL l) (by rw [stripL_rstripL]; exact h1)
      (by rw [stripL_rstripL]; simpa using h2)
      (by rw [stripL_rstripL]; exact h3)
  rw [hb2, rstripL_idem]

/-- Remove the last comma of a joined document, line-
wise: the last line that holds a comma loses its last comma. -/
def rlcL : List (List Char) → List (List Char)
  | [] => []
  | l :: ls =>
    if ls.isEmpty then [removeLastComma l]
    else if ',' ∈ joinNl ls then l :: rlcL ls
    else removeLastComma l :: ls

theorem rlcL_ne_nil (M : List (List Char)) (h : M ≠ []) : rlcL M ≠ [] := by
  cases M with
  | nil => exact absurd rfl h
  | cons l ls =>
    unfold rlcL
    by_cases h1 : ls.isEmpty
    · simp [h1]
    · by_cases h2 : ',' ∈ joinNl ls <;> simp [h1, h2]

theorem joinNl_cons (l : List Char) (ls : List (List Char)) (h : ls ≠ []) :
    joinNl (l :: ls) = l ++ '\n' :: joinNl ls := by
  cases ls with
  | nil => exact absurd rfl h
  | cons m ms => rfl

theorem rlcL_cons_eq (l : List Char) (ls : List (List Char)) :
    rlcL (l :: ls) =
      if ls.isEmpty then [removeLastComma l]
      else if ',' ∈ joinNl ls then l :: rlcL ls
      else removeLastComma l :: ls := rfl

theorem removeLastComma_cons (c : Char) (x : List Char) (hc : c ≠ ',') :
    removeLastComma (c :: x) =
      if ',' ∈ x then c :: removeLastComma x else c :: x := by
  have h := removeLastComma_append [c] x
  simp only [List.singleton_append] at h
  rw [h, removeLastComma_of_not_mem [c]
    (by simp only [List.mem_singleton]; exact Ne.symm hc)]
  by_cases hm : ',' ∈ x
  · simp [hm]
  · simp [hm]

theorem removeLastComma_joinNl (M : List (List Char)) (h : M ≠ []) :
    removeLastComma (joinNl M) = joinNl (rlcL M) := by
  induction M with
  | nil => exact absurd rfl h
  | cons l ls ih =>
    cases ls with
    | nil => simp [joinNl, rlcL]
    | cons m ms =>
      rw [joinNl_cons l (m :: ms) (by simp)]
      rw [removeLastComma_append]
      have hnl : ('\n' : Char) ≠ ',' := by decide
      rw [rlcL_cons_eq l (m :: ms)]
      simp only [List.isEmpty_cons, Bool.false_eq_true, if_false]
      by_cases hm : ',' ∈ joinNl (m :: ms)
      · have hin : (',' ∈ '\n' :: joinNl (m :: ms)) := List.mem_cons_of_mem _ hm
        rw [if_pos hin, removeLastComma_cons '\n' _ hnl, if_pos hm,
          ih (by simp), if_pos hm,
          joinNl_cons l (rlcL (m :: ms)) (rlcL_ne_nil _ (by simp))]
      · have hout : ¬ (',' ∈ '\n' :: joinNl (m :: ms)) := by
          simp only [List.mem_cons, not_or]
          exact ⟨Ne.symm hnl, hm⟩
        rw [if_neg hout, if_neg hm,
          joinNl_cons (removeLastComma l) (m :: ms) (by simp)]

theorem map_fixLine_rlcL (L : List (List Char)) (h : ∀ l ∈ L, ',' ∉ l) :
    (rlcL (L.map fixLine)).map fixLine = L.map fixLine := by
  induction L with
  | nil => rfl
  | cons l ls ih =>
    have hl : ',' ∉ l := h l (List.mem_cons_self _ _)
    have hls : ∀ x ∈ ls, ',' ∉ x := fun x hx => h x (List.mem_cons_of_mem _ hx)
    rw [List.map_cons, rlcL_cons_eq]
    by_cases h1 : (ls.map fixLine).isEmpty
    · rw [if_pos h1]
      rw [List.isEmpty_iff, List.map_eq_nil_iff] at h1
      subst h1
      simp [fixLine_removeLast l hl]
    · rw [if_neg h1]
      by_cases h2 : ',' ∈ joinNl (ls.map fixLine)
      · rw [if_pos h2, List.map_cons, fixLine_idem l hl, ih hls]
      · rw [if_neg h2, List.map_cons, fixLine_removeLast l hl, List.map_map]
        congr 1
        exact List.map_congr_left (fun x hx => fixLine_idem x (hls x hx))

theorem mem_fixLine (x : List Char) (c : Char) (h : c ∈ fixLine x) :
    c ∈ x ∨ c = ',' := by
  simp only [fixLine] at h
  split_ifs at h
  · exact Or.inl h
  · exact Or.inl h
  · exact Or.inl h
  · rcases List.mem_append.mp h with h | h
    · exact Or.inl (mem_rstripL _ _ h)
    · simp only [List.mem_singleton] at h
      exact Or.inr h

theorem rlcL_mem_chars (M : List (List Char)) (l : List Char) (hl : l ∈ rlcL M)
    (c : Char) (hc : c ∈ l) : ∃ x ∈ M, c ∈ x := by
  induction M generalizing l with
  | nil => simp [rlcL] at hl
  | cons m ms ih =>
    rw [rlcL_cons_eq] at hl
    split_ifs at hl with h1 h2
    · simp only [List.mem_singleton] at hl
      subst hl
      exact ⟨m, List.mem_cons_self _ _, mem_removeLastComma _ _ hc⟩
    · rcases List.mem_cons.mp hl with rfl | hl2
      · exact ⟨l, List.mem_cons_self _ _, hc⟩
      · obtain ⟨x, hx, hcx⟩ := ih l hl2 hc
        exact ⟨x, List.mem_cons_of_mem _ hx, hcx⟩
    · rcases List.mem_cons.mp hl with rfl | hl2
      · exact ⟨m, List.mem_cons_self _ _, mem_removeLastComma _ _ hc⟩
      · exact ⟨l, List.mem_cons_of_mem _ hl2, hc⟩

/-- Core fact behind the idempotence analysis: on comma-free input, a second
pass of the repair function changes nothing. -/
theorem addCommas_fix (s : List Char) (h : ',' ∉ s) :
    addCommas (addCommas s) = addCommas s := by
  have hL : ∀ l ∈ splitNl s, ',' ∉ l := fun l hl hc => h (mem_of_mem_splitNl hl hc)
  have hMne : (splitNl s).map fixLine ≠ [] := by
    intro e
    exact splitNl_ne_nil s (List.map_eq_nil_iff.mp e)
  have hMnl : ∀ l ∈ (splitNl s).map fixLine, '\n' ∉ l := by
    intro l hl hmem
    rw [List.mem_map] at hl
    obtain ⟨x, hx, rfl⟩ := hl
    rcases mem_fixLine x '\n' hmem with hmx | habs
    · exact no_nl_of_mem_splitNl hx hmx
    · exact absurd habs (by decide)
  have h1 : addCommas s = joinNl (rlcL ((splitNl s).map fixLine)) := by
    unfold addCommas
    exact removeLastComma_joinNl _ hMne
  have hNne : rlcL ((splitNl s).map fixLine) ≠ [] := rlcL_ne_nil _ hMne
  have hNnl : ∀ l ∈ rlcL ((splitNl s).map fixLine), '\n' ∉ l := by
    intro l hl hmem
    obtain ⟨x, hx, hcx⟩ := rlcL_mem_chars _ _ hl _ hmem
    exact hMnl x hx hcx
  calc addCommas (addCommas s)
      = removeLastComma (joinNl ((splitNl (addCommas s)).map fixLine)) := rfl
    _ = removeLastComma (joinNl ((rlcL ((splitNl s).map fixLine)).map fixLine)) := by
        rw [h1, splitNl_joinNl _ hNne hNnl]
    _ = removeLastComma (joinNl ((splitNl s).map fixLine)) := by
        rw [map_fixLine_rlcL _ hL]
    _ = addCommas s := rfl

/-- Core fact behind the zero-comma case: with no comma anywhere and every
non-empty line already ending structurally, the repair is the identity. -/
theorem addCommas_ident (s : List Char) (h1 : ',' ∉ s)
    (h2 : ∀ l ∈ splitNl s, l = [] ∨ structEnd (stripL l) = true) :
    addCommas s = s := by
  have h3 : ∀ l ∈ splitNl s, fixLine l = l := by
    intro l hl
    rcases h2 l hl with rfl | hS
    · exact fixLine_eq_self [] (Or.inl rfl)
    · exact fixLine_eq_self l (Or.inr (Or.inl hS))
  have hmap : (splitNl s).map fixLine = splitNl s :=
    (List.map_congr_left (by simpa using h3)).trans (List.map_id _)
  unfold addCommas
  rw [hmap, joinNl_splitNl, removeLastComma_of_not_mem s h1]

/-! ## Support lemmas for the claim theorems -/

theorem mkFrame_get_status : mkFrame "get_status" none = some ("get_status", .bool true) := rfl

theorem get_alarm_snd (dev : Dev) (h : dev.isOpen = true) :
    (get_alarm dev).2 = [("get_status", JVal.bool true)] := by
  simp [get_alarm, get_status, pyGet, h, mkFrame_get_status]

theorem strMk_append (a b : List Char) :
    String.mk a ++ String.mk b = String.mk (a ++ b) := rfl

theorem flatten_map_singleton (f : Char → List Char) (l : List Char)
    (h : ∀ c ∈ l, f c = [c]) : (l.map f).flatten = l := by
  induction l with
  | nil => rfl
  | cons c cs ih =>
    rw [List.map_cons, List.flatten_cons, h c (List.mem_cons_self _ _),
      ih (fun x hx => h x (List.mem_cons_of_mem _ hx))]
    rfl

theorem jstrL_plain (k : String) (h : ∀ c ∈ k.data, jesc c = [c]) :
    jstrL k = '"' :: k.data ++ ['"'] := by
  unfold jstrL
  rw [flatten_map_singleton _ _ h]

theorem dumps_single (k : String) (p : JVal) (h : ∀ c ∈ k.data, jesc c = [c]) :
    dumps (.obj [(k, p)]) = "\x7b\"" ++ k ++ "\": " ++ dumps p ++ "\x7d" := by
  show String.mk (dumpsL (.obj [(k, p)])) = _
  have hk : k = String.mk k.data := rfl
  conv_rhs => rw [hk]
  rw [show ("\x7b\"" : String) = String.mk ['\x7b', '"'] from rfl,
    show ("\": " : String) = String.mk ['"', ':', ' '] from rfl,
    show ("\x7d" : String) = String.mk ['\x7d'] from rfl]
  rw [dumps, strMk_append, strMk_append, strMk_append, strMk_append]
  show String.mk ('\x7b' :: dumpsObj [(k, p)] ++ ['\x7d']) = _
  rw [show dumpsObj [(k, p)] = jstrL k ++ ':' :: ' ' :: dumpsL p from rfl,
    jstrL_plain k h]
  simp

/-- Every name of the command vocabulary serializes without escapes. -/
theorem apiCmd_plain (name : String) (h : name ∈ apiCmd) :
    ∀ c ∈ name.data, jesc c = [c] := by
  simp only [apiCmd, List.mem_cons, List.not_mem_nil, or_false] at h
  rcases h with rfl | rfl | rfl | rfl | rfl | rfl | rfl | rfl | rfl | rfl | rfl | rfl | rfl <;>
    decide

/-! ## Claim theorems -/

/-- Claim C9: for every command name in the vocabulary, encoding with an
absent payload produces exactly the single-line JSON object
`\x7b"<name>": true\x7d` (the serialization of the literal `True`), and
encoding with a payload produces `\x7b"<name>": <payload>\x7d`; for every
name outside the vocabulary the encoder returns no frame and `write`
writes nothing to the channel. -/
theorem C9_encode_vocab (name : String) (p : JVal) (b : Bool) :
    (name ∈ apiCmd →
      jsonStr name none = some ("\x7b\"" ++ name ++ "\": " ++ dumps (.bool true) ++ "\x7d")
      ∧ dumps (.bool true) = "true"
      ∧ jsonStr name (some p) = some ("\x7b\"" ++ name ++ "\": " ++ dumps p ++ "\x7d"))
    ∧ (name ∉ apiCmd →
      jsonStr name none = none ∧ jsonStr name (some p) = none
      ∧ pyWrite b (jsonStr name none) = (false, [])
      ∧ pyWrite b (jsonStr name (some p)) = (false, [])) := by
  constructor
  · intro hmem
    refine ⟨?_, rfl, ?_⟩
    · rw [jsonStr, if_pos hmem,
        show (none : Option JVal).getD (.bool true) = .bool true from rfl,
        dumps_single name (.bool true) (apiCmd_plain name hmem)]
    · rw [jsonStr, if_pos hmem,
        show (some p).getD (.bool true) = p from rfl,
        dumps_single name p (apiCmd_plain name hmem)]
  · intro hmem
    have h1 : jsonStr name none = none := by rw [jsonStr, if_neg hmem]
    have h2 : jsonStr name (some p) = none := by rw [jsonStr, if_neg hmem]
    exact ⟨h1, h2, by rw [h1]; rfl, by rw [h2]; rfl⟩

/-- Claim C9 witness: a vocabulary name encodes to its single-line frame and
an unknown name yields no frame. -/
theorem C9_encode_vocab_witness :
    jsonStr "get_info" none = some "\x7b\"get_info\": true\x7d"
    ∧ jsonStr "banana" none = none := by
  constructor
  · have h := ((C9_encode_vocab "get_info" (.num 0) true).1 (by decide)).1
    rw [h]; rfl
  · exact ((C9_encode_vocab "banana" (.num 0) true).2 (by decide)).1

/-- Claim C10: on input with no comma in which every non-empty line ends
(after trimming) in one of the structural characters, the repair function
returns its input unchanged — the final remove-one-comma step is the
identity when no comma is present. -/
theorem C10_addCommas_identity (s : List Char) (h1 : ',' ∉ s)
    (h2 : ∀ l ∈ splitNl s, l = [] ∨ structEnd (stripL l) = true) :
    addCommas s = s :=
  addCommas_ident s h1 h2

/-- Claim C10 witness: a concrete comma-free structurally-terminated text is
returned unchanged. -/
theorem C10_addCommas_identity_witness :
    (',' ∉ "\x7b\n\"a\": \x7b\n\x7d\n\x7d".data
      ∧ ∀ l ∈ splitNl "\x7b\n\"a\": \x7b\n\x7d\n\x7d".data,
          l = [] ∨ structEnd (stripL l) = true)
    ∧ addCommas "\x7b\n\"a\": \x7b\n\x7d\n\x7d".data
        = "\x7b\n\"a\": \x7b\n\x7d\n\x7d".data :=
  ⟨⟨by decide, by decide⟩, C10_addCommas_identity _ (by decide) (by decide)⟩

/-- Claim C4 counterexample: the structurally valid JSON text
`[[1,\n2],\n3]` is not a fixed point of a second repair pass — the first
pass strips the comma after `2]`, the second pass then strips the comma
after `[[1`, so `repair(repair(x))` differs from `repair(x)`. -/
theorem C4_not_idempotent_ce :
    jsonValid "[[1,\n2],\n3]".data = true
    ∧ addCommas (addCommas "[[1,\n2],\n3]".data)
        ≠ addCommas "[[1,\n2],\n3]".data :=
  ⟨by decide, by decide⟩

/-- Claim C4 (amended): the repair function is idempotent on any input that
contains no comma character (in particular on comma-free valid JSON); on
general already-valid JSON a second pass can remove one more comma, as
the counterexample shows. -/
theorem C4_addCommas_idem_comma_free (s : List Char) (h : ',' ∉ s) :
    addCommas (addCommas s) = addCommas s :=
  addCommas_fix s h

/-- Claim C4 witness: idempotence at a concrete comma-free text whose first
pass is not the identity. -/
theorem C4_addCommas_idem_comma_free_witness :
    ',' ∉ "\x7b\n\"a\": 1\n\x7d".data
    ∧ addCommas (addCommas "\x7b\n\"a\": 1\n\x7d".data)
        = addCommas "\x7b\n\"a\": 1\n\x7d".data :=
  ⟨by decide, C4_addCommas_idem_comma_free _ (by decide)⟩

/-- Device state for claim C1: open port, get_status reporting alarm
OVER_TEMP. -/
def devAlarm : Dev :=
  { isOpen := true
    statusReply := some (.obj [("success", .bool true),
      ("data", .obj [("alarm", .str "OVER_TEMP")])]) }

/-- Claim C1 counterexample: with queried alarm `OVER_TEMP` the start-heating
call does fail and sends no start_heating frame, but one frame — the
get_status query issued by `get_alarm` — is written, so the claimed
*zero* frames is false. -/
theorem C1_alarm_gate_ce :
    (get_alarm devAlarm).1 = .ok (some (.str "OVER_TEMP"))
    ∧ start_heating devAlarm [("mode", .str "auto")]
        = (.ok false, [("get_status", .bool true)])
    ∧ ([("get_status", JVal.bool true)] : List Frame) ≠ [] :=
  ⟨rfl, rfl, by simp⟩

/-- Claim C1 (amended): on an open connection, when the queried alarm value
is not the string `NO_ALARM`, `start_heating` returns `False` and the
frames written are exactly the single get_status query — in particular no
start_heating frame reaches the channel. -/
theorem C1_alarm_gate (dev : Dev) (config : Jdict) (a : Option JVal)
    (hopen : dev.isOpen = true) (hcfg : config ≠ [])
    (ha : (get_alarm dev).1 = .ok a)
    (hne : jeqStr a "NO_ALARM" = false) :
    start_heating dev config = (.ok false, [("get_status", JVal.bool true)]) := by
  have hb : config.isEmpty = false := by
    cases config with
    | nil => exact absurd rfl hcfg
    | cons p ps => rfl
  simp only [start_heating, hb, Bool.false_eq_true, if_false, ha, hne,
    Bool.not_false, Bool.or_true, if_pos, get_alarm_snd dev hopen]

/-- Claim C1 witness: the amended statement at the concrete OVER_TEMP
device. -/
theorem C1_alarm_gate_witness :
    devAlarm.isOpen = true
    ∧ ([("mode", JVal.str "auto")] : Jdict) ≠ []
    ∧ (get_alarm devAlarm).1 = .ok (some (.str "OVER_TEMP"))
    ∧ jeqStr (some (.str "OVER_TEMP")) "NO_ALARM" = false
    ∧ start_heating devAlarm [("mode", .str "auto")]
        = (.ok false, [("get_status", JVal.bool true)]) :=
  ⟨rfl, by simp, rfl, rfl,
    C1_alarm_gate devAlarm [("mode", .str "auto")] (some (.str "OVER_TEMP"))
      rfl (by simp) rfl rfl⟩

/-- Device state for claim C2: open port, do_reset acknowledged. -/
def devReset : Dev :=
  { isOpen := true
    resetReply := some (.obj [("success", .bool true)]) }

/-- Claim C2 (code bug): `do_reset({all:true, profiles:true})` sends the
*whole* config as the payload — the collapse to `\x7ball:true\x7d` never
happens, because the source tests the key `"alL"` (typo) and then writes
`config` instead of the computed `d`. -/
theorem C2_do_reset_bug :
    do_reset devReset [("all", .bool true), ("profiles", .bool true)]
      = (.ok true, [("do_reset", .obj [("all", .bool true), ("profiles", .bool true)])])
    ∧ JVal.obj [("all", .bool true), ("profiles", .bool true)]
        ≠ JVal.obj [("all", .bool true)] :=
  ⟨rfl, by simp⟩

/-- Device state for claim C3: open port, no alarm, set_streaming
acknowledged. -/
def devStream : Dev :=
  { isOpen := true
    statusReply := some (.obj [("data", .obj [("alarm", .str "NO_ALARM")])])
    streamReply := some (.obj [("success", .bool true)]) }

/-- Claim C3 counterexample: `start_streaming('once')` writes the alarm
query and then a set_streaming frame whose payload is exactly
`\x7bmode:"once"\x7d`: no `get_streaming` fetch happens and the payload is
not the merged complete configuration the claim requires. -/
theorem C3_no_merge_ce :
    start_streaming devStream "once"
      = (.ok true, [("get_status", .bool true),
          ("set_streaming", .obj [("mode", .str "once")])])
    ∧ (∀ f ∈ (start_streaming devStream "once").2, f.1 ≠ "get_streaming")
    ∧ JVal.obj [("mode", .str "once")]
        ≠ JVal.obj [("mode", .str "once"), ("rate", .num 5),
            ("temperature", .bool true), ("power", .bool true)] :=
  ⟨rfl, by decide, by simp⟩

/-- Claim C3 (amended): starting streaming performs the alarm query and then
sends a set_streaming frame whose payload is exactly the single field
`\x7bmode: m\x7d`; stopping sends exactly `\x7bmode: "off"\x7d`.  The
current configuration is never fetched and no merge happens, so a partial
configuration object is what reaches the device. -/
theorem C3_mode_only (dev : Dev) (m : String)
    (hopen : dev.isOpen = true)
    (ha : (get_alarm dev).1 = .ok (some (.str "NO_ALARM")))
    (hm : m = "continuous" ∨ m = "once") :
    (start_streaming dev m).2
      = [("get_status", JVal.bool true), ("set_streaming", .obj [("mode", .str m)])]
    ∧ (stop_streaming dev).2 = [("set_streaming", .obj [("mode", .str "off")])] := by
  have hset : ∀ v : JVal, (set_streaming dev [("mode", v)]).2
      = [("set_streaming", JVal.obj [("mode", v)])] := by
    intro v
    simp [set_streaming, writeF, hopen,
      show mkFrame "set_streaming" (some (.obj [("mode", v)]))
        = some ("set_streaming", .obj [("mode", v)]) from rfl]
  have hg : (!truthyO (some (.str "NO_ALARM"))
      || !jeqStr (some (.str "NO_ALARM")) "NO_ALARM") = false := by decide
  constructor
  · have hmb : (m = "continuous" || m = "once") = true := by
      rcases hm with rfl | rfl <;> simp
    simp only [start_streaming, ha, hg, Bool.false_eq_true, if_false, hmb, if_true,
      get_alarm_snd dev hopen, hset]
    rfl
  · rw [stop_streaming, hset]

/-- Claim C3 witness: the amended statement at the concrete device with
streaming config unrelated to the sent payload. -/
theorem C3_mode_only_witness :
    devStream.isOpen = true
    ∧ (get_alarm devStream).1 = .ok (some (.str "NO_ALARM"))
    ∧ ("once" = "continuous" ∨ "once" = "once")
    ∧ (start_streaming devStream "once").2
        = [("get_status", JVal.bool true), ("set_streaming", .obj [("mode", .str "once")])] :=
  ⟨rfl, rfl, Or.inr rfl,
    (C3_mode_only devStream "once" rfl rfl (Or.inr rfl)).1⟩

/-- Claim C5 counterexample: a truthy parsed reply carrying neither a
`success` nor an `error` key is classified as success (`True`), not as a
failure. -/
theorem C5_markerless_ce :
    isSuccess (some (.obj [("data", .num 1)])) = .ok true
    ∧ (.ok true : Except PyErr Bool) ≠ .ok false :=
  ⟨rfl, by simp⟩

/-- Claim C5 (amended): a parsed dict reply with neither marker key is
accepted as success exactly when it is non-empty; only a falsy reply, a
falsy `success` value or a present `error` key produce failure. -/
theorem C5_markerless (kvs : Jdict)
    (h : ∀ p ∈ kvs, p.1 ≠ "success" ∧ p.1 ≠ "error") :
    isSuccess (some (.obj kvs)) = .ok (!kvs.isEmpty) := by
  cases kvs with
  | nil => rfl
  | cons q qs =>
    have hs : ((q :: qs).any fun p => decide (p.1 = "success")) = false := by
      rw [List.any_eq_false]
      intro p hp
      simp [(h p hp).1]
    have he : ((q :: qs).any fun p => decide (p.1 = "error")) = false := by
      rw [List.any_eq_false]
      intro p hp
      simp [(h p hp).2]
    simp [isSuccess, pyInStr, truthy, hs, he]

/-- Claim C5 witness: the amended statement at a concrete markerless reply. -/
theorem C5_markerless_witness :
    (∀ p ∈ ([("data", JVal.num 2)] : Jdict), p.1 ≠ "success" ∧ p.1 ≠ "error")
    ∧ isSuccess (some (.obj [("data", JVal.num 2)])) = .ok true :=
  ⟨by decide, (C5_markerless [("data", JVal.num 2)] (by decide)).trans rfl⟩

/-- Device state for claim C6: open port, no alarm, start_heating
acknowledged. -/
def devUnknownMode : Dev :=
  { isOpen := true
    statusReply := some (.obj [("data", .obj [("alarm", .str "NO_ALARM")])])
    heatReply := some (.obj [("success", .bool true)]) }

/-- Claim C6 counterexample: `start_heating` performs no mode validation —
the unknown mode `banana` is forwarded to the device in a start_heating
frame and the call reports success, instead of failing with no frame. -/
theorem C6_unknown_mode_ce :
    start_heating devUnknownMode [("mode", .str "banana")]
      = (.ok true, [("get_status", .bool true),
          ("start_heating", .obj [("mode", .str "banana")])])
    ∧ ∃ f ∈ (start_heating devUnknownMode [("mode", .str "banana")]).2,
        f.1 = "start_heating" := by
  refine ⟨rfl, ⟨("start_heating", .obj [("mode", .str "banana")]), ?_, rfl⟩⟩
  rw [show (start_heating devUnknownMode [("mode", .str "banana")]).2
      = [("get_status", JVal.bool true),
         ("start_heating", JVal.obj [("mode", JVal.str "banana")])] from rfl]
  simp

/-- Claim C6 (amended): only the `set_mode` path rejects a mode outside
\x7bauto, direct, shock, profile\x7d (case-insensitively) — it raises
`ValueError` before any frame is written; the `start_heating` path does
not validate the mode and forwards it to the device in a payload holding
exactly the mode field. -/
theorem C6_mode_validation (dev : Dev) (config : Jdict) (m : String)
    (hopen : dev.isOpen = true) (hcfg : config ≠ [])
    (ha : (get_alarm dev).1 = .ok (some (.str "NO_ALARM")))
    (hm : config.lookup "mode" = some (.str m))
    (hnm : String.mk (m.data.map Char.toLower)
      ∉ (["auto", "direct", "shock", "profile"] : List String)) :
    set_mode dev config
      = (.error (.valueError ("Mode " ++ String.mk (m.data.map Char.toLower)
          ++ " is not allowed.")), [])
    ∧ (start_heating dev config).2
        = [("get_status", JVal.bool true),
           ("start_heating", .obj [("mode", .str m)])] := by
  simp only [List.mem_cons, List.not_mem_nil, or_false, not_or] at hnm
  obtain ⟨h1, h2, h3, h4⟩ := hnm
  constructor
  · have hp : modePayload config = .error (.valueError
        ("Mode " ++ String.mk (m.data.map Char.toLower) ++ " is not allowed.")) := by
      simp only [modePayload, hm, pyLower, if_neg h1, if_neg h2, if_neg h3, if_neg h4]
    simp [set_mode, hp]
  · have hb : config.isEmpty = false := by
      cases config with
      | nil => exact absurd rfl hcfg
      | cons p ps => rfl
    have hg : (!truthyO (some (.str "NO_ALARM"))
        || !jeqStr (some (.str "NO_ALARM")) "NO_ALARM") = false := by decide
    have hp : heatPayload config = .ok (some [("mode", JVal.str m)]) := by
      simp only [heatPayload, hm, Option.getD_some, pyLower,
        if_neg h1, if_neg h2, if_neg h3, if_neg h4]
    simp only [start_heating, hb, Bool.false_eq_true, if_false, ha, hg, hp,
      get_alarm_snd dev hopen, writeF, hopen, if_true,
      show mkFrame "start_heating" (some (.obj [("mode", JVal.str m)]))
        = some ("start_heating", .obj [("mode", .str m)]) from rfl]
    rfl

/-- Claim C6 witness: the amended statement at a concrete unknown mode. -/
theorem C6_mode_validation_witness :
    devUnknownMode.isOpen = true
    ∧ ([("mode", JVal.str "BANANA")] : Jdict) ≠ []
    ∧ (get_alarm devUnknownMode).1 = .ok (some (.str "NO_ALARM"))
    ∧ ([("mode", JVal.str "BANANA")] : Jdict).lookup "mode" = some (.str "BANANA")
    ∧ String.mk ("BANANA".data.map Char.toLower)
        ∉ (["auto", "direct", "shock", "profile"] : List String)
    ∧ set_mode devUnknownMode [("mode", .str "BANANA")]
        = (.error (.valueError ("Mode "
            ++ String.mk ("BANANA".data.map Char.toLower) ++ " is not allowed.")), []) :=
  ⟨rfl, by simp, rfl, rfl, by decide,
    (C6_mode_validation devUnknownMode [("mode", .str "BANANA")] "BANANA"
      rfl (by simp) rfl rfl (by decide)).1⟩

/-- Device state for claim C7: open port, no alarm, start_heating
acknowledged. -/
def devHeat : Dev :=
  { isOpen := true
    statusReply := some (.obj [("data", .obj [("alarm", .str "NO_ALARM")])])
    heatReply := some (.obj [("success", .bool true)]) }

/-- Claim C7 (code bug): `profile_number` 10 is indeed rejected before any
start_heating frame, but the documented success case
`\x7bmode: profile, profile_number: 9\x7d` raises `KeyError
'ignore_limit_error'` instead of sending the payload — the source tests
the literal string `'ignore_limit_error'` (always truthy) and then
unconditionally indexes the config; and `duration` is never range-checked:
a shock duration of 100000 (outside [0.1, 9999]) is sent unquestioned. -/
theorem C7_profile_range_bug :
    start_heating devHeat [("mode", .str "profile"), ("profile_number", .num 9)]
      = (.error (.keyError "ignore_limit_error"), [("get_status", .bool true)])
    ∧ start_heating devHeat [("mode", .str "profile"), ("profile_number", .num 10)]
      = (.ok false, [("get_status", .bool true)])
    ∧ start_heating devHeat [("mode", .str "shock"), ("duration", .num 100000)]
      = (.ok true, [("get_status", .bool true),
          ("start_heating", .obj [("mode", .str "shock"), ("duration", .num 100000)])]) :=
  ⟨rfl, rfl, rfl⟩

/-- Device state for claim C8: open port, set_mode acknowledged. -/
def devMode : Dev :=
  { isOpen := true
    modeReply := some (.obj [("success", .bool true)]) }

/-- Claim C8 (code bug): in `set_mode`'s SHOCK branch the absence of the
optional legal field `duration` raises `KeyError 'duration'` (the source
tests the literal string `'duration'`, always truthy, then indexes the
config) — contradicting "absence of an optional legal field never causes
a failure"; when `duration` is supplied, the payload filtering itself
works: an AUTO config keeps only mode and temperature, dropping power. -/
theorem C8_shock_duration_bug :
    set_mode devMode [("mode", .str "shock"), ("power", .num 50)]
      = (.error (.keyError "duration"), [])
    ∧ set_mode devMode [("mode", .str "AUTO"), ("temperature", .num 25), ("power", .num 50)]
      = (.ok (some true), [("set_mode", .obj [("mode", .str "auto"), ("temperature", .num 25)])]) :=
  ⟨rfl, rfl⟩
